import Mathlib

/-!
Verification development for the okx-tui-monitor data pipeline.

The Go source is shallowly embedded: `float64` fields are modelled as
exact rationals (`ℚ`); the claims at issue are algebraic (signs, guards,
field fallbacks), not rounding behaviour.  A Go `map[string]interface{}`
record is modelled as an association list of its string-valued fields: a
key missing from the list models both an absent field and a field whose
value is not a string, because the Go type assertion `.(string)` fails
identically in both cases.  Go maps used as state
(`currentPositions`, `demoPositions`, the UI position/balance tables)
are modelled as association lists with map-style insert/replace.
Wall-clock reads (`time.Now().UnixNano()` scaled to milliseconds) become
an explicit `now` parameter.  Division by zero, which in Go `float64`
produces NaN, is the total `ℚ` division (value 0); every claim touching
that point is stated so that the verdict is insensitive to the choice.
-/

/-- A raw venue record: the string-valued fields of a decoded
`map[string]interface{}` JSON object. -/
abbrev RawRecord := List (String × String)

/-- Value of a digit list read in base 10 (most significant first). -/
def digitsVal (l : List Char) : Nat :=
  l.foldl (fun acc c => 10 * acc + (c.toNat - 48)) 0

/-- Read an unsigned decimal (digits, optional point, digits) prefix of a
character list, as `fmt.Sscanf` with `%f` does, returning the scaled
numerator and the power-of-ten denominator; `none` when no digit is
readable.  Trailing garbage after the number is ignored, matching Go's
prefix scan.  (Exponent and inf/NaN forms, which the monitored wire
format never uses, are out of scope.) -/
def parseDecAux (cs : List Char) : Option (Nat × Nat) :=
  let ip := cs.takeWhile Char.isDigit
  let rest := cs.drop ip.length
  let fp := match rest with
            | '.' :: t => t.takeWhile Char.isDigit
            | _ => []
  if ip.isEmpty && fp.isEmpty then none
  else some (digitsVal ip * 10 ^ fp.length + digitsVal fp, 10 ^ fp.length)

/-- Model of `fmt.Sscanf(s, "%f", &x)`: `some q` when a number is read
(`x` is assigned `q`), `none` when scanning fails (`x` is left alone). -/
def parseFloatQ (s : String) : Option ℚ :=
  match s.data with
  | '-' :: t => (parseDecAux t).map (fun p => mkRat (-(p.1 : Int)) p.2)
  | '+' :: t => (parseDecAux t).map (fun p => mkRat p.1 p.2)
  | cs => (parseDecAux cs).map (fun p => mkRat p.1 p.2)

/-- `fmt.Sscanf` into a zero-initialised `float64` field: the field keeps
its zero value when the scan fails. -/
def scanFQ (s : String) : ℚ := (parseFloatQ s).getD 0

/-- Go `PositionData` struct (core/okx_client.go). -/
structure PositionData where
  InstrumentID : String
  PositionSide : String
  Size : ℚ
  AvgPrice : ℚ
  CurrentPrice : ℚ
  PnL : ℚ
  PnLRatio : ℚ
  Leverage : ℚ
  Timestamp : Int
  deriving Repr, DecidableEq

/-- Go `BalanceData` struct (core/okx_client.go). -/
structure BalanceData where
  Currency : String
  TotalEquity : ℚ
  AvailBalance : ℚ
  Timestamp : Int
  deriving Repr, DecidableEq

/-- Go helper `getString`: the string value of a key, `""` when the key is
absent or not a string. -/
def getString (d : RawRecord) (k : String) : String :=
  (d.lookup k).getD ""

/-- Position side extraction in `parsePositionData`: `posSide`, defaulting
to `"long"` when empty/absent (ticker-derived records carry no side). -/
def posSideOf (d : RawRecord) : String :=
  let s := getString d "posSide"
  if s = "" then "long" else s

/-- Size extraction in `parsePositionData`: scan the `pos` field when it is
present (a failed scan leaves the zero value), default `1.0` when absent. -/
def posSizeOf (d : RawRecord) : ℚ :=
  match d.lookup "pos" with
  | some s => scanFQ s
  | none => 1

/-- Average-price extraction in `parsePositionData`: `avgPx`, falling back
to `last` only when `avgPx` is absent. -/
def avgPriceOf (d : RawRecord) : ℚ :=
  match d.lookup "avgPx" with
  | some s => scanFQ s
  | none =>
    match d.lookup "last" with
    | some s => scanFQ s
    | none => 0

/-- Current-price extraction in `parsePositionData`: `markPx`, falling back
to `last` only when `markPx` is absent. -/
def curPriceOf (d : RawRecord) : ℚ :=
  match d.lookup "markPx" with
  | some s => scanFQ s
  | none =>
    match d.lookup "last" with
    | some s => scanFQ s
    | none => 0

/-- Generic-PnL branch of `parsePositionData`: the `pnl` field, accepted
only when present, non-empty and not the literal `"0"`. -/
def pnlGenericOf (d : RawRecord) : Option ℚ :=
  match d.lookup "pnl" with
  | some s => if s != "" && s != "0" then some (scanFQ s) else none
  | none => none

/-- Explicit-PnL extraction of `parsePositionData`: `upl` first (same
non-empty/non-`"0"` guard), then the `pnl` fallback; `none` means
`pnlFound` stays false in the Go code. -/
def pnlExplicitOf (d : RawRecord) : Option ℚ :=
  match d.lookup "upl" with
  | some s => if s != "" && s != "0" then some (scanFQ s) else pnlGenericOf d
  | none => pnlGenericOf d

/-- The price-computed PnL formula shared by `parsePositionData`,
`handleTickerData` and the UI reducer: short profits when the price falls,
long (any other side) profits when it rises. -/
def computedPnl (side : String) (avg cur size : ℚ) : ℚ :=
  if side = "short" then (avg - cur) * size else (cur - avg) * size

/-- PnL field of the decoded position: the explicit field wins; the
computed fallback runs only when prices and size are all positive;
otherwise the zero-initialised field stays 0. -/
def pnlOf (d : RawRecord) : ℚ :=
  match pnlExplicitOf d with
  | some v => v
  | none =>
    if curPriceOf d > 0 ∧ avgPriceOf d > 0 ∧ posSizeOf d > 0 then
      computedPnl (posSideOf d) (avgPriceOf d) (curPriceOf d) (posSizeOf d)
    else 0

/-- Explicit-ratio extraction of `parsePositionData`: `uplRatio` then
`pnlRatio`, each guarded non-empty/non-`"0"` and scaled ×100 from
fraction to percent. -/
def ratioExplicitOf (d : RawRecord) : Option ℚ :=
  match d.lookup "uplRatio" with
  | some s =>
    if s != "" && s != "0" then some (scanFQ s * 100)
    else
      match d.lookup "pnlRatio" with
      | some s2 => if s2 != "" && s2 != "0" then some (scanFQ s2 * 100) else none
      | none => none
  | none =>
    match d.lookup "pnlRatio" with
    | some s2 => if s2 != "" && s2 != "0" then some (scanFQ s2 * 100) else none
    | none => none

/-- Ratio field of the decoded position: the explicit field wins; the
computed fallback runs only when `avgPrice > 0 ∧ size > 0`; otherwise the
zero-initialised field stays 0. -/
def ratioOf (d : RawRecord) : ℚ :=
  match ratioExplicitOf d with
  | some v => v
  | none =>
    if avgPriceOf d > 0 ∧ posSizeOf d > 0 then
      pnlOf d / (avgPriceOf d * posSizeOf d) * 100
    else 0

/-- Leverage extraction in `parsePositionData`: scan `lever` when present,
default `1.0` when absent. -/
def leverageOf (d : RawRecord) : ℚ :=
  match d.lookup "lever" with
  | some s => scanFQ s
  | none => 1

/-- The pure field-extraction part of `parsePositionData`
(core/okx_client.go lines 625-707); `now` is the wall clock read for the
record's timestamp. -/
def parsePositionFields (now : Int) (d : RawRecord) : PositionData :=
  { InstrumentID := getString d "instId"
    PositionSide := posSideOf d
    Size := posSizeOf d
    AvgPrice := avgPriceOf d
    CurrentPrice := curPriceOf d
    PnL := pnlOf d
    PnLRatio := ratioOf d
    Leverage := leverageOf d
    Timestamp := now }

/-- Go `parseBalanceData` (core/okx_client.go lines 727-743). -/
def parseBalanceData (now : Int) (d : RawRecord) : BalanceData :=
  { Currency := getString d "ccy"
    TotalEquity :=
      match d.lookup "totalEq" with
      | some s => scanFQ s
      | none => 0
    AvailBalance :=
      match d.lookup "availBal" with
      | some s => scanFQ s
      | none => 0
    Timestamp := now }

/-- Insert a key into a set of instrument IDs (Go
`map[string]bool` with `true` values): keep the set unchanged when the
key is already present. -/
def setInsert (l : List String) (x : String) : List String :=
  if l.contains x then l else l ++ [x]

/-- Go map assignment `m[k] = v` on an association list: replace the
entry when the key is present, append it otherwise. -/
def mapSet {α : Type} : List (String × α) → String → α → List (String × α)
  | [], k, v => [(k, v)]
  | (k', v') :: rest, k, v =>
    if k' = k then (k, v) :: rest else (k', v') :: mapSet rest k v

/-- The mutable state of the Go `OKXClient` that the claims touch:
the ticker-subscription working set `currentPositions`, the demo
position table, and the demo-mode flag.  Channels and sockets are
modelled by the functions' explicit outputs. -/
structure OKXClient where
  currentPositions : List String
  demoPositions : List (String × PositionData)
  isDemo : Bool
  deriving Repr, DecidableEq

/-- Go `parsePositionData` (core/okx_client.go lines 625-724): decode the
fields, then — when the instrument ID is non-empty and the size positive —
record the instrument in `currentPositions` and, if the ticker connection
exists, call `updateTickerSubscriptions`.  Returns the new state, the
decoded record, and whether a ticker re-subscription was issued. -/
def parsePositionData (c : OKXClient) (hasTickerConn : Bool) (now : Int)
    (d : RawRecord) : OKXClient × PositionData × Bool :=
  let p := parsePositionFields now d
  if p.InstrumentID ≠ "" ∧ p.Size > 0 then
    ({ c with currentPositions := setInsert c.currentPositions p.InstrumentID },
     p, hasTickerConn)
  else (c, p, false)

/-- The position/ticker data-frame branch of `StartListening`
(core/okx_client.go lines 574-584 and the no-`arg` fallback 586-596):
every item of the batch is decoded with `parsePositionData` and the
decoded record is sent on the position channel, unconditionally.  Returns
the final client state and the list of emitted records, in order. -/
def processPositionItems (c : OKXClient) (hasTickerConn : Bool) (now : Int) :
    List RawRecord → OKXClient × List PositionData
  | [] => (c, [])
  | d :: rest =>
    let r := parsePositionData c hasTickerConn now d
    let rec2 := processPositionItems r.1 hasTickerConn now rest
    (rec2.1, r.2.1 :: rec2.2)

/-- The demo-position update of `handleTickerData`
(core/okx_client.go lines 252-271): set the current price, recompute the
PnL from the stored side, and recompute the ratio — guarded only on
`AvgPrice > 0`, the size is not checked — then stamp the receive time. -/
def demoMerge (p : PositionData) (lastPrice : ℚ) (now : Int) : PositionData :=
  let p1 := { p with CurrentPrice := lastPrice }
  let p2 := { p1 with PnL := computedPnl p1.PositionSide p1.AvgPrice lastPrice p1.Size }
  let p3 :=
    if p2.AvgPrice > 0 then
      { p2 with PnLRatio := p2.PnL / (p2.AvgPrice * p2.Size) * 100 }
    else p2
  { p3 with Timestamp := now }

/-- Go `handleTickerData` (core/okx_client.go lines 236-289): drop the
record when the instrument ID is empty; in demo mode merge the tick into
a stored demo position and emit the merged position; otherwise emit a
minimal price-only record (all other fields at their Go zero values).
Returns the new state and the records emitted on the position channel. -/
def handleTickerData (c : OKXClient) (now : Int) (d : RawRecord) :
    OKXClient × List PositionData :=
  let instId := getString d "instId"
  if instId = "" then (c, [])
  else
    let lastPrice :=
      match d.lookup "last" with
      | some s => scanFQ s
      | none => 0
    if c.isDemo then
      match c.demoPositions.lookup instId with
      | some demoPos =>
        let merged := demoMerge demoPos lastPrice now
        ({ c with demoPositions := mapSet c.demoPositions instId merged }, [merged])
      | none =>
        (c, [{ InstrumentID := instId, PositionSide := "", Size := 0, AvgPrice := 0,
               CurrentPrice := lastPrice, PnL := 0, PnLRatio := 0, Leverage := 0,
               Timestamp := now }])
    else
      (c, [{ InstrumentID := instId, PositionSide := "", Size := 0, AvgPrice := 0,
             CurrentPrice := lastPrice, PnL := 0, PnLRatio := 0, Leverage := 0,
             Timestamp := now }])

/-- The state of the UI `Model` (ui package) that the reducer claims
touch: the position table keyed by `"instId-posSide"`, the balance table
keyed by currency, and the previous-balance snapshot. -/
structure Model where
  positions : List (String × PositionData)
  balances : List (String × BalanceData)
  previousBalance : ℚ
  deriving Repr, DecidableEq

/-- The per-position body of the ticker branch of `Model.Update`
(ui, lines 404-428): overwrite current price and timestamp from the
price-only record, then recompute PnL and ratio — only when the stored
position has `Size > 0` and `AvgPrice > 0`. -/
def mergeTicker (p msg : PositionData) : PositionData :=
  let p1 := { p with CurrentPrice := msg.CurrentPrice, Timestamp := msg.Timestamp }
  if p1.Size > 0 ∧ p1.AvgPrice > 0 then
    let pnl := computedPnl p1.PositionSide p1.AvgPrice p1.CurrentPrice p1.Size
    { p1 with PnL := pnl, PnLRatio := pnl / (p1.AvgPrice * p1.Size) * 100 }
  else p1

/-- One entry of the ticker-branch loop of `Model.Update`: entries whose
instrument matches the incoming price-only record are merged, all others
are written back unchanged. -/
def tickerApply (msg : PositionData) (kp : String × PositionData) :
    String × PositionData :=
  if kp.2.InstrumentID = msg.InstrumentID then (kp.1, mergeTicker kp.2 msg) else kp

/-- The `positionUpdateMsg` case of `Model.Update` (ui, lines 393-441):
a record with a non-empty side is upserted under the key
`instId ++ "-" ++ side`; a record with an empty side is a price-only
delta folded into every stored position of the same instrument. -/
def Model.updatePositionMsg (m : Model) (msg : PositionData) : Model :=
  if msg.PositionSide ≠ "" then
    { m with positions :=
        mapSet m.positions (msg.InstrumentID ++ "-" ++ msg.PositionSide) msg }
  else
    { m with positions := m.positions.map (tickerApply msg) }

/-- Aggregate total equity over the stored balance table (the loop at
ui lines 445-448). -/
def totalEquityOf (balances : List (String × BalanceData)) : ℚ :=
  balances.foldl (fun acc kb => acc + kb.2.TotalEquity) 0

/-- The `balanceUpdateMsg` case of `Model.Update` (ui, lines 443-463):
snapshot the aggregate total as the previous balance — but only when that
total is positive — then upsert the balance entry by currency. -/
def Model.updateBalanceMsg (m : Model) (msg : BalanceData) : Model :=
  let currentTotalBalance := totalEquityOf m.balances
  let prev := if currentTotalBalance > 0 then currentTotalBalance else m.previousBalance
  { m with previousBalance := prev,
           balances := mapSet m.balances msg.Currency msg }

/-- Whether `needle` is a leading segment of `hay` (character lists). -/
def leadMatch : List Char → List Char → Bool
  | [], _ => true
  | _ :: _, [] => false
  | a :: as, b :: bs => a == b && leadMatch as bs

/-- Substring search over character lists. -/
def hasSub : List Char → List Char → Bool
  | [], needle => needle.isEmpty
  | c :: t, needle => leadMatch needle (c :: t) || hasSub t needle

/-- Go `strings.Contains`. -/
def goContains (s sub : String) : Bool := hasSub s.data sub.data

/-- A hexadecimal digit as accepted by the credential regular
expression's `[a-fA-F0-9]` classes. -/
def isHexDigit (c : Char) : Bool :=
  ('0' ≤ c && c ≤ '9') || ('a' ≤ c && c ≤ 'f') || ('A' ≤ c && c ≤ 'F')

/-- Split a character list at every `'-'` (the groups of the UUID shape). -/
def splitOnDash : List Char → List (List Char)
  | [] => [[]]
  | '-' :: t => [] :: splitOnDash t
  | c :: t =>
    match splitOnDash t with
    | g :: gs => (c :: g) :: gs
    | [] => [[c]]

/-- The anchored UUID-shape check of main.go: five dash-separated groups
of hexadecimal digits with lengths 8-4-4-4-12. -/
def uuidMatch (s : String) : Bool :=
  match splitOnDash s.data with
  | [a, b, c, d, e] =>
    a.length == 8 && b.length == 4 && c.length == 4 && d.length == 4 &&
    e.length == 12 && a.all isHexDigit && b.all isHexDigit && c.all isHexDigit &&
    d.all isHexDigit && e.all isHexDigit
  | _ => false

/-- Go `validateAPICredentials` (main.go lines 16-41); string lengths are
byte lengths as Go's `len` computes them. -/
def validateAPICredentials (apiKey secretKey passphrase : String) : Bool :=
  if goContains apiKey "your-actual-api-key" ||
     goContains secretKey "your-actual-api-secret" ||
     goContains passphrase "your-actual-passphrase" then false
  else if !uuidMatch apiKey then false
  else if secretKey.utf8ByteSize < 32 then false
  else if passphrase.utf8ByteSize == 0 then false
  else true

/-- Resolving a successful scan to its value. -/
theorem scanFQ_of_parse (s : String) (q : ℚ) (h : parseFloatQ s = some q) :
    scanFQ s = q := by
  simp [scanFQ, h]

/-- Evaluation of the explicit-PnL example string. -/
theorem scanFQ_five_point_five : scanFQ "5.5" = 11 / 2 := by
  have h : parseFloatQ "5.5" = some (mkRat 55 10) := by decide
  rw [scanFQ_of_parse _ _ h, Rat.mkRat_eq_divInt, Rat.divInt_eq_div]
  norm_num

/-- `mapSet` stores the assigned value under the assigned key. -/
theorem mapSet_lookup_self {α : Type} (l : List (String × α)) (k : String) (v : α) :
    (mapSet l k v).lookup k = some v := by
  induction l with
  | nil => simp [mapSet, List.lookup]
  | cons hd tl ih =>
    obtain ⟨k', v'⟩ := hd
    by_cases h : k' = k
    · subst h; simp [mapSet, List.lookup]
    · have hb : (k == k') = false := beq_eq_false_iff_ne.mpr (Ne.symm h)
      simp [mapSet, h, List.lookup, hb, ih]

/-- `mapSet` leaves every other key's binding unchanged. -/
theorem mapSet_lookup_ne {α : Type} (l : List (String × α)) (k : String) (v : α)
    (c : String) (h : c ≠ k) : (mapSet l k v).lookup c = l.lookup c := by
  have hck : (c == k) = false := beq_eq_false_iff_ne.mpr h
  induction l with
  | nil => simp [mapSet, List.lookup, hck]
  | cons hd tl ih =>
    obtain ⟨k', v'⟩ := hd
    by_cases h2 : k' = k
    · subst h2; simp [mapSet, List.lookup, hck]
    · cases hcc : (c == k') <;> simp [mapSet, h2, List.lookup, hcc, ih]

/-- The concrete worked example of the spec: long position, average 100,
size 2, mark price 110, no explicit PnL/ratio fields. -/
def exLongRecord : RawRecord :=
  [("instId", "BTC-USDT-SWAP"), ("posSide", "long"), ("pos", "2"),
   ("avgPx", "100"), ("markPx", "110")]

/-- The same record with the side flipped to short. -/
def exShortRecord : RawRecord :=
  [("instId", "BTC-USDT-SWAP"), ("posSide", "short"), ("pos", "2"),
   ("avgPx", "100"), ("markPx", "110")]

/-- The worked example carrying an explicit `upl` field that disagrees
with what the prices would compute. -/
def uplWinsRecord : RawRecord :=
  [("instId", "BTC-USDT-SWAP"), ("posSide", "long"), ("pos", "2"),
   ("avgPx", "100"), ("markPx", "110"), ("upl", "5.5")]

/-- A record whose `pos` field is present but not numeric. -/
def abcRecord : RawRecord :=
  [("instId", "BTC-USDT-SWAP"), ("pos", "abc"), ("avgPx", "100"), ("markPx", "110")]

/-- Claim C1: for a decoded position record whose PnL is computed from
prices (no explicit `upl`/`pnl` field; positive prices and size, which is
what lets the computed branch run), the sign convention holds — a long
position with current price above average has positive PnL, a short
position with current price below average has positive PnL — and on the
worked example (average 100, size 2, current 110) the long side yields
PnL 20 and the short side yields PnL −20. -/
theorem pnl_sign_invariant (now : Int) (d : RawRecord)
    (hu : d.lookup "upl" = none) (hp : d.lookup "pnl" = none)
    (hc : 0 < (parsePositionFields now d).CurrentPrice)
    (ha : 0 < (parsePositionFields now d).AvgPrice)
    (hs : 0 < (parsePositionFields now d).Size) :
    (((parsePositionFields now d).PositionSide = "long" →
        (parsePositionFields now d).AvgPrice < (parsePositionFields now d).CurrentPrice →
        0 < (parsePositionFields now d).PnL) ∧
     ((parsePositionFields now d).PositionSide = "short" →
        (parsePositionFields now d).CurrentPrice < (parsePositionFields now d).AvgPrice →
        0 < (parsePositionFields now d).PnL)) ∧
    (parsePositionFields 0 exLongRecord).PnL = 20 ∧
    (parsePositionFields 0 exShortRecord).PnL = -20 := by
  simp only [parsePositionFields] at hc ha hs ⊢
  have hex : pnlExplicitOf d = none := by
    simp [pnlExplicitOf, pnlGenericOf, hu, hp]
  have hpnl : pnlOf d = computedPnl (posSideOf d) (avgPriceOf d) (curPriceOf d) (posSizeOf d) := by
    simp only [pnlOf, hex]
    rw [if_pos ⟨hc, ha, hs⟩]
  refine ⟨⟨?_, ?_⟩, ?_, ?_⟩
  · intro hside hlt
    rw [hpnl, computedPnl, hside]
    rw [if_neg (by decide)]
    exact mul_pos (sub_pos.mpr hlt) hs
  · intro hside hlt
    rw [hpnl, computedPnl, hside, if_pos rfl]
    exact mul_pos (sub_pos.mpr hlt) hs
  · have e1 : pnlExplicitOf exLongRecord = none := by decide
    have e2 : curPriceOf exLongRecord = 110 := by decide
    have e3 : avgPriceOf exLongRecord = 100 := by decide
    have e4 : posSizeOf exLongRecord = 2 := by decide
    have e5 : posSideOf exLongRecord = "long" := by decide
    simp [pnlOf, e1, e2, e3, e4, e5, computedPnl]
    norm_num
  · have e1 : pnlExplicitOf exShortRecord = none := by decide
    have e2 : curPriceOf exShortRecord = 110 := by decide
    have e3 : avgPriceOf exShortRecord = 100 := by decide
    have e4 : posSizeOf exShortRecord = 2 := by decide
    have e5 : posSideOf exShortRecord = "short" := by decide
    simp [pnlOf, e1, e2, e3, e4, e5, computedPnl]
    norm_num

/-- Witness for `pnl_sign_invariant` at the spec's worked example. -/
theorem pnl_sign_invariant_witness :
    (exLongRecord.lookup "upl" = none) ∧ (exLongRecord.lookup "pnl" = none) ∧
    0 < (parsePositionFields 0 exLongRecord).CurrentPrice ∧
    0 < (parsePositionFields 0 exLongRecord).AvgPrice ∧
    0 < (parsePositionFields 0 exLongRecord).Size ∧
    ((((parsePositionFields 0 exLongRecord).PositionSide = "long" →
        (parsePositionFields 0 exLongRecord).AvgPrice < (parsePositionFields 0 exLongRecord).CurrentPrice →
        0 < (parsePositionFields 0 exLongRecord).PnL) ∧
      ((parsePositionFields 0 exLongRecord).PositionSide = "short" →
        (parsePositionFields 0 exLongRecord).CurrentPrice < (parsePositionFields 0 exLongRecord).AvgPrice →
        0 < (parsePositionFields 0 exLongRecord).PnL)) ∧
     (parsePositionFields 0 exLongRecord).PnL = 20 ∧
     (parsePositionFields 0 exShortRecord).PnL = -20) :=
  ⟨by decide, by decide, by decide, by decide, by decide,
   pnl_sign_invariant 0 exLongRecord (by decide) (by decide) (by decide)
     (by decide) (by decide)⟩

/-- A ticker-shaped record with no average-price field. -/
def fallbackRecord : RawRecord := [("instId", "ETH-USDT-SWAP"), ("last", "50000")]

/-- Claim C3: field fallback — a record with no `avgPx` but `last="50000"`
decodes with average price 50000, and an explicit `upl="5.5"` field fixes
the decoded PnL at 5.5 (for any record carrying it), even on the worked
example where the price-computed value would be 20. -/
theorem field_fallback (d : RawRecord)
    (h1 : d.lookup "avgPx" = none) (h2 : d.lookup "last" = some "50000") :
    (parsePositionFields 0 d).AvgPrice = 50000 ∧
    (∀ d2 : RawRecord, d2.lookup "upl" = some "5.5" →
        (parsePositionFields 0 d2).PnL = 11 / 2) ∧
    (parsePositionFields 0 uplWinsRecord).PnL = 11 / 2 ∧
    computedPnl (posSideOf uplWinsRecord) (avgPriceOf uplWinsRecord)
      (curPriceOf uplWinsRecord) (posSizeOf uplWinsRecord) = 20 ∧
    (11 : ℚ) / 2 ≠ 20 := by
  refine ⟨?_, ?_, ?_, ?_, by norm_num⟩
  · have hv : parseFloatQ "50000" = some 50000 := by decide
    simp [parsePositionFields, avgPriceOf, h1, h2, scanFQ, hv]
  · intro d2 hup
    have hg : (("5.5" != "") && ("5.5" != "0")) = true := by decide
    simp [parsePositionFields, pnlOf, pnlExplicitOf, hup, hg, scanFQ_five_point_five]
  · have e : pnlExplicitOf uplWinsRecord = some (scanFQ "5.5") := by decide
    simp [parsePositionFields, pnlOf, e, scanFQ_five_point_five]
  · have e5 : posSideOf uplWinsRecord = "long" := by decide
    have e3 : avgPriceOf uplWinsRecord = 100 := by decide
    have e2 : curPriceOf uplWinsRecord = 110 := by decide
    have e4 : posSizeOf uplWinsRecord = 2 := by decide
    rw [e5, e3, e2, e4, computedPnl, if_neg (by decide : ¬("long" = "short"))]
    norm_num

/-- Witness for `field_fallback` at a concrete ticker-shaped record. -/
theorem field_fallback_witness :
    (fallbackRecord.lookup "avgPx" = none) ∧
    (fallbackRecord.lookup "last" = some "50000") ∧
    ((parsePositionFields 0 fallbackRecord).AvgPrice = 50000 ∧
     (∀ d2 : RawRecord, d2.lookup "upl" = some "5.5" →
         (parsePositionFields 0 d2).PnL = 11 / 2) ∧
     (parsePositionFields 0 uplWinsRecord).PnL = 11 / 2 ∧
     computedPnl (posSideOf uplWinsRecord) (avgPriceOf uplWinsRecord)
       (curPriceOf uplWinsRecord) (posSizeOf uplWinsRecord) = 20 ∧
     (11 : ℚ) / 2 ≠ 20) :=
  ⟨by decide, by decide, field_fallback fallbackRecord (by decide) (by decide)⟩

/-- Claim C4 counterexample: the record `{instId, pos:"abc", avgPx:"100",
markPx:"110"}` decodes with size 0 — the malformed field keeps the Go
zero value — not the absent-field default 1.0 that the claim requires. -/
theorem decode_malformed_cex :
    (parsePositionFields 0 abcRecord).Size = 0 ∧ ((0 : ℚ) ≠ 1) :=
  ⟨by decide, by decide⟩

/-- Claim C4 as amended: a present-but-malformed numeric `pos` field never
aborts decoding — the whole decode is a total function — but the field is
left at its zero value 0.0 (not the absent-case default 1.0), and the
remaining fields of the record are parsed normally, as the full decoded
record for the `pos:"abc"` example shows. -/
theorem decode_malformed_amended :
    (∀ (d : RawRecord) (s : String), d.lookup "pos" = some s →
        parseFloatQ s = none → (parsePositionFields 0 d).Size = 0) ∧
    parsePositionFields 0 abcRecord =
      { InstrumentID := "BTC-USDT-SWAP", PositionSide := "long", Size := 0,
        AvgPrice := 100, CurrentPrice := 110, PnL := 0, PnLRatio := 0,
        Leverage := 1, Timestamp := 0 } := by
  constructor
  · intro d s hpos hparse
    simp [parsePositionFields, posSizeOf, hpos, scanFQ, hparse]
  · decide

/-- Witness for `decode_malformed_amended` at the `pos:"abc"` record. -/
theorem decode_malformed_witness :
    (abcRecord.lookup "pos" = some "abc") ∧ (parseFloatQ "abc" = none) ∧
    (parsePositionFields 0 abcRecord).Size = 0 :=
  ⟨by decide, by decide, decode_malformed_amended.1 abcRecord "abc" (by decide) (by decide)⟩

/-- A stored demo position with positive average price but size zero and a
non-zero last-known ratio. -/
def pDemoZeroSize : PositionData :=
  { InstrumentID := "Y-USDT-SWAP", PositionSide := "long", Size := 0,
    AvgPrice := 100, CurrentPrice := 100, PnL := 0, PnLRatio := 5,
    Leverage := 10, Timestamp := 0 }

/-- A demo-mode client state holding `pDemoZeroSize`. -/
def cDemo : OKXClient :=
  { currentPositions := [], demoPositions := [("Y-USDT-SWAP", pDemoZeroSize)],
    isDemo := true }

/-- A price tick for the stored demo instrument. -/
def dTickY : RawRecord := [("instId", "Y-USDT-SWAP"), ("last", "110")]

/-- Claim C2 counterexample: merging a ticker into a stored demo position
with `averagePrice = 100 > 0` but `size = 0` does **not** leave the ratio
at its last-known value 5 — the demo merge guards only on
`averagePrice > 0`, so the division-by-zero formula is evaluated (NaN in
Go `float64`, 0 in the exact model; either way not 5). -/
theorem ratio_guard_cex :
    pDemoZeroSize.AvgPrice = 100 ∧ pDemoZeroSize.Size = 0 ∧
    pDemoZeroSize.PnLRatio = 5 ∧
    (((handleTickerData cDemo 7 dTickY).1.demoPositions.lookup
        "Y-USDT-SWAP").map PositionData.PnLRatio) = some 0 ∧
    ((0 : ℚ) ≠ 5) := by
  refine ⟨by decide, by decide, by decide, ?_, by decide⟩
  have hlast : scanFQ "110" = 110 := by decide
  have hlook : cDemo.demoPositions.lookup "Y-USDT-SWAP" = some pDemoZeroSize := by decide
  have hmerge : (demoMerge pDemoZeroSize (scanFQ "110") 7).PnLRatio = 0 := by
    rw [hlast]
    simp [demoMerge, pDemoZeroSize, computedPnl]
  simp only [handleTickerData]
  rw [if_neg (by decide : ¬(getString dTickY "instId" = ""))]
  simp only [show getString dTickY "instId" = "Y-USDT-SWAP" from by decide,
    show dTickY.lookup "last" = some "110" from by decide,
    show cDemo.isDemo = true from rfl, if_true, hlook]
  simp [mapSet_lookup_self, hmerge]

/-- Claim C2 as amended: the ratio is derived at three places — position
decoding, the reducer's ticker merge, and the demo-position ticker merge.
Decoding and the reducer compute `PnL / (averagePrice * size) * 100` only
when `averagePrice > 0 ∧ size > 0` and otherwise leave the field alone
(at its zero initialisation for decoding, at the stored value for the
reducer); the demo merge guards only on `averagePrice > 0`, with the size
unchecked, and leaves the stored ratio alone only when
`averagePrice ≤ 0`. -/
theorem ratio_guard_amended :
    (∀ d : RawRecord, ratioExplicitOf d = none →
       ((0 < avgPriceOf d ∧ 0 < posSizeOf d →
           ratioOf d = pnlOf d / (avgPriceOf d * posSizeOf d) * 100) ∧
        (¬(0 < avgPriceOf d ∧ 0 < posSizeOf d) → ratioOf d = 0))) ∧
    (∀ p msg : PositionData,
       (0 < p.Size ∧ 0 < p.AvgPrice →
          (mergeTicker p msg).PnLRatio =
            (mergeTicker p msg).PnL / (p.AvgPrice * p.Size) * 100) ∧
       (¬(0 < p.Size ∧ 0 < p.AvgPrice) →
          (mergeTicker p msg).PnLRatio = p.PnLRatio)) ∧
    (∀ (p : PositionData) (lastPrice : ℚ) (now : Int),
       (0 < p.AvgPrice →
          (demoMerge p lastPrice now).PnLRatio =
            (demoMerge p lastPrice now).PnL / (p.AvgPrice * p.Size) * 100) ∧
       (¬ 0 < p.AvgPrice →
          (demoMerge p lastPrice now).PnLRatio = p.PnLRatio)) := by
  refine ⟨?_, ?_, ?_⟩
  · intro d hnone
    constructor
    · intro hg
      simp only [ratioOf, hnone]
      rw [if_pos ⟨hg.1, hg.2⟩]
    · intro hg
      simp only [ratioOf, hnone]
      rw [if_neg (fun h => hg ⟨h.1, h.2⟩)]
  · intro p msg
    constructor
    · intro hg
      simp only [mergeTicker]
      rw [if_pos (by exact ⟨hg.1, hg.2⟩)]
    · intro hg
      simp only [mergeTicker]
      rw [if_neg (fun h => hg ⟨h.1, h.2⟩)]
  · intro p lastPrice now
    constructor
    · intro hg
      simp only [demoMerge]
      rw [if_pos (by exact hg)]
    · intro hg
      simp only [demoMerge]
      rw [if_neg hg]

/-- Witness for `ratio_guard_amended`: the computed-ratio branch on the
worked example record. -/
theorem ratio_guard_amended_witness :
    (ratioExplicitOf exLongRecord = none) ∧
    (0 < avgPriceOf exLongRecord ∧ 0 < posSizeOf exLongRecord) ∧
    ratioOf exLongRecord =
      pnlOf exLongRecord / (avgPriceOf exLongRecord * posSizeOf exLongRecord) * 100 :=
  ⟨by decide, ⟨by decide, by decide⟩,
   (ratio_guard_amended.1 exLongRecord (by decide)).1 ⟨by decide, by decide⟩⟩

/-- The ticker-branch loop body keeps every entry's key. -/
theorem tickerApply_fst (msg : PositionData) (kp : String × PositionData) :
    (tickerApply msg kp).1 = kp.1 := by
  unfold tickerApply
  split <;> rfl

/-- Mapping the ticker-branch loop over the table preserves the key list. -/
theorem map_tickerApply_fst (msg : PositionData) (l : List (String × PositionData)) :
    (l.map (tickerApply msg)).map Prod.fst = l.map Prod.fst := by
  induction l with
  | nil => rfl
  | cons hd tl ih => simp [tickerApply_fst, ih]

/-- The merge when the stored position has positive size and average
price: price, timestamp, PnL and ratio are all rewritten. -/
theorem mergeTicker_pos (p msg : PositionData) (hg : 0 < p.Size ∧ 0 < p.AvgPrice) :
    mergeTicker p msg =
      { p with
          CurrentPrice := msg.CurrentPrice
          Timestamp := msg.Timestamp
          PnL := computedPnl p.PositionSide p.AvgPrice msg.CurrentPrice p.Size
          PnLRatio := computedPnl p.PositionSide p.AvgPrice msg.CurrentPrice p.Size /
            (p.AvgPrice * p.Size) * 100 } := by
  simp only [mergeTicker]
  rw [if_pos hg]

/-- The merge when the guard fails: only price and timestamp change. -/
theorem mergeTicker_neg (p msg : PositionData) (hg : ¬(0 < p.Size ∧ 0 < p.AvgPrice)) :
    mergeTicker p msg =
      { p with CurrentPrice := msg.CurrentPrice, Timestamp := msg.Timestamp } := by
  simp only [mergeTicker]
  rw [if_neg hg]

/-- A stored reducer position with size 0 but a non-zero stored PnL. -/
def pC5 : PositionData :=
  { InstrumentID := "X-USDT-SWAP", PositionSide := "long", Size := 0,
    AvgPrice := 100, CurrentPrice := 105, PnL := 7, PnLRatio := 3,
    Leverage := 10, Timestamp := 0 }

/-- A reducer state holding `pC5` under its `"instId-side"` key. -/
def mC5 : Model :=
  { positions := [("X-USDT-SWAP-long", pC5)], balances := [], previousBalance := 0 }

/-- A ticker-only record (empty side) for the stored instrument. -/
def msgTickX : PositionData :=
  { InstrumentID := "X-USDT-SWAP", PositionSide := "", Size := 0, AvgPrice := 0,
    CurrentPrice := 110, PnL := 0, PnLRatio := 0, Leverage := 0, Timestamp := 99 }

/-- Claim C5 counterexample: on a ticker-only record the reducer does not
recompute PnL for a matching stored position whose size is 0 — the stored
PnL 7 survives, while recomputing from the position's own side, average
price and size (as the claim requires) would give 0. -/
theorem ticker_merge_cex :
    pC5.Size = 0 ∧ pC5.PnL = 7 ∧ msgTickX.PositionSide = "" ∧
    (((Model.updatePositionMsg mC5 msgTickX).positions.lookup
        "X-USDT-SWAP-long").map PositionData.PnL) = some 7 ∧
    computedPnl pC5.PositionSide pC5.AvgPrice msgTickX.CurrentPrice pC5.Size = 0 ∧
    ((7 : ℚ) ≠ 0) := by
  refine ⟨by decide, by decide, by decide, by decide, ?_, by decide⟩
  norm_num [pC5, msgTickX, computedPnl]

/-- Claim C5 as amended: on a ticker-only record (empty side) the reducer
creates no entry (the key list is untouched), leaves the balance state and
every position of a different instrument unchanged, and maps every stored
position of the matching instrument through the merge — which overwrites
current price and timestamp, keeps the identity fields, and recomputes
PnL/ratio only when the stored position has positive size and average
price, leaving PnL and ratio at their stored values otherwise. -/
theorem ticker_merge_amended (m : Model) (msg : PositionData)
    (hside : msg.PositionSide = "") :
    ((Model.updatePositionMsg m msg).positions.map Prod.fst = m.positions.map Prod.fst) ∧
    ((Model.updatePositionMsg m msg).balances = m.balances) ∧
    ((Model.updatePositionMsg m msg).previousBalance = m.previousBalance) ∧
    (∀ kp ∈ m.positions, kp.2.InstrumentID ≠ msg.InstrumentID →
        kp ∈ (Model.updatePositionMsg m msg).positions) ∧
    (∀ kp ∈ m.positions, kp.2.InstrumentID = msg.InstrumentID →
        (kp.1, mergeTicker kp.2 msg) ∈ (Model.updatePositionMsg m msg).positions) ∧
    (∀ p : PositionData,
        (mergeTicker p msg).CurrentPrice = msg.CurrentPrice ∧
        (mergeTicker p msg).Timestamp = msg.Timestamp ∧
        (mergeTicker p msg).InstrumentID = p.InstrumentID ∧
        (mergeTicker p msg).PositionSide = p.PositionSide ∧
        (mergeTicker p msg).Size = p.Size ∧
        (mergeTicker p msg).AvgPrice = p.AvgPrice ∧
        (0 < p.Size ∧ 0 < p.AvgPrice →
          (mergeTicker p msg).PnL =
            computedPnl p.PositionSide p.AvgPrice msg.CurrentPrice p.Size ∧
          (mergeTicker p msg).PnLRatio =
            computedPnl p.PositionSide p.AvgPrice msg.CurrentPrice p.Size /
              (p.AvgPrice * p.Size) * 100) ∧
        (¬(0 < p.Size ∧ 0 < p.AvgPrice) →
          (mergeTicker p msg).PnL = p.PnL ∧
          (mergeTicker p msg).PnLRatio = p.PnLRatio)) := by
  have hupd : Model.updatePositionMsg m msg =
      { m with positions := m.positions.map (tickerApply msg) } := by
    simp [Model.updatePositionMsg, hside]
  refine ⟨?_, ?_, ?_, ?_, ?_, ?_⟩
  · rw [hupd]
    exact map_tickerApply_fst msg m.positions
  · rw [hupd]
  · rw [hupd]
  · intro kp hkp hne
    rw [hupd]
    have hmem := List.mem_map_of_mem (tickerApply msg) hkp
    have he : tickerApply msg kp = kp := by
      unfold tickerApply
      rw [if_neg hne]
    rwa [he] at hmem
  · intro kp hkp heq
    rw [hupd]
    have hmem := List.mem_map_of_mem (tickerApply msg) hkp
    have he : tickerApply msg kp = (kp.1, mergeTicker kp.2 msg) := by
      unfold tickerApply
      rw [if_pos heq]
    rwa [he] at hmem
  · intro p
    by_cases hg : 0 < p.Size ∧ 0 < p.AvgPrice
    · rw [mergeTicker_pos p msg hg]
      refine ⟨rfl, rfl, rfl, rfl, rfl, rfl, fun _ => ⟨rfl, rfl⟩, fun hng => absurd hg hng⟩
    · rw [mergeTicker_neg p msg hg]
      refine ⟨rfl, rfl, rfl, rfl, rfl, rfl, fun hpg => absurd hpg hg, fun _ => ⟨rfl, rfl⟩⟩

/-- Witness for `ticker_merge_amended` at the concrete state `mC5`. -/
theorem ticker_merge_amended_witness :
    msgTickX.PositionSide = "" ∧
    ((Model.updatePositionMsg mC5 msgTickX).positions.map Prod.fst =
        mC5.positions.map Prod.fst) ∧
    ((Model.updatePositionMsg mC5 msgTickX).balances = mC5.balances) ∧
    ((Model.updatePositionMsg mC5 msgTickX).previousBalance = mC5.previousBalance) ∧
    (∀ kp ∈ mC5.positions, kp.2.InstrumentID ≠ msgTickX.InstrumentID →
        kp ∈ (Model.updatePositionMsg mC5 msgTickX).positions) ∧
    (∀ kp ∈ mC5.positions, kp.2.InstrumentID = msgTickX.InstrumentID →
        (kp.1, mergeTicker kp.2 msgTickX) ∈ (Model.updatePositionMsg mC5 msgTickX).positions) ∧
    (∀ p : PositionData,
        (mergeTicker p msgTickX).CurrentPrice = msgTickX.CurrentPrice ∧
        (mergeTicker p msgTickX).Timestamp = msgTickX.Timestamp ∧
        (mergeTicker p msgTickX).InstrumentID = p.InstrumentID ∧
        (mergeTicker p msgTickX).PositionSide = p.PositionSide ∧
        (mergeTicker p msgTickX).Size = p.Size ∧
        (mergeTicker p msgTickX).AvgPrice = p.AvgPrice ∧
        (0 < p.Size ∧ 0 < p.AvgPrice →
          (mergeTicker p msgTickX).PnL =
            computedPnl p.PositionSide p.AvgPrice msgTickX.CurrentPrice p.Size ∧
          (mergeTicker p msgTickX).PnLRatio =
            computedPnl p.PositionSide p.AvgPrice msgTickX.CurrentPrice p.Size /
              (p.AvgPrice * p.Size) * 100) ∧
        (¬(0 < p.Size ∧ 0 < p.AvgPrice) →
          (mergeTicker p msgTickX).PnL = p.PnL ∧
          (mergeTicker p msgTickX).PnLRatio = p.PnLRatio)) :=
  ⟨by decide, ticker_merge_amended mC5 msgTickX (by decide)⟩

/-- A record with no `instId` field at all. -/
def noInstRecord : RawRecord := [("last", "50000")]

/-- An initial client state: empty working set, no demo positions. -/
def c0 : OKXClient := { currentPositions := [], demoPositions := [], isDemo := false }

/-- Claim C6 counterexample: a record with no `instId` field is **not**
dropped by the position-decoding path — `StartListening` still emits one
decoded record for it on the position channel, carrying an empty
instrument ID. -/
theorem missing_instId_cex :
    (noInstRecord.lookup "instId" = none) ∧
    (processPositionItems c0 true 0 [noInstRecord]).2.length = 1 ∧
    ((processPositionItems c0 true 0 [noInstRecord]).2.map
        PositionData.InstrumentID) = [""] := by
  refine ⟨by decide, by decide, by decide⟩

/-- Claim C6 as amended: only the dedicated ticker handler drops a record
whose `instId` field is absent (it emits nothing and leaves the state
untouched); the position-decoding path of the trading feed emits exactly
one record per batch item, with no drop for a missing instrument ID. -/
theorem missing_instId_amended :
    (∀ (c : OKXClient) (now : Int) (d : RawRecord), d.lookup "instId" = none →
        handleTickerData c now d = (c, [])) ∧
    (∀ (c : OKXClient) (conn : Bool) (now : Int) (items : List RawRecord),
        (processPositionItems c conn now items).2.length = items.length) := by
  constructor
  · intro c now d h
    simp [handleTickerData, getString, h]
  · intro c conn now items
    induction items generalizing c with
    | nil => simp [processPositionItems]
    | cons hd tl ih => simp [processPositionItems, ih]

/-- Witness for `missing_instId_amended` at the concrete `instId`-less
record. -/
theorem missing_instId_witness :
    (noInstRecord.lookup "instId" = none) ∧
    handleTickerData c0 5 noInstRecord = (c0, []) ∧
    (processPositionItems c0 true 5 [noInstRecord]).2.length = [noInstRecord].length :=
  ⟨by decide, missing_instId_amended.1 c0 5 noInstRecord (by decide),
   missing_instId_amended.2 c0 true 5 [noInstRecord]⟩

/-- A ticker-shaped record (instrument and last price, no position
fields) as the trading feed's decoder receives it in demo mode. -/
def tickerViaMain : RawRecord := [("instId", "BTC-USDT-SWAP"), ("last", "50000")]

/-- Claim C7 counterexample: a ticker-only record routed through
`parsePositionData` (no `pos` field, so size defaults to 1.0) mutates the
working set and triggers a market-data re-subscription, contrary to the
claim that ticker processing never does either. -/
theorem subscription_trigger_cex :
    (tickerViaMain.lookup "pos" = none) ∧
    (tickerViaMain.lookup "posSide" = none) ∧
    (parsePositionFields 0 tickerViaMain).Size = 1 ∧
    (parsePositionData c0 true 0 tickerViaMain).1.currentPositions = ["BTC-USDT-SWAP"] ∧
    (parsePositionData c0 true 0 tickerViaMain).2.2 = true ∧
    (["BTC-USDT-SWAP"] ≠ ([] : List String)) := by
  refine ⟨by decide, by decide, by decide, by decide, by decide, by decide⟩

/-- Claim C7 as amended: `parsePositionData` mutates the working set and
issues a re-subscription (when the ticker connection exists) exactly when
the decoded record has a non-empty instrument ID and positive size — a
condition ticker records routed to it also meet, via the default size
1.0 — and leaves everything unchanged otherwise; the dedicated ticker
handler never touches the working set. -/
theorem subscription_trigger_amended (c : OKXClient) (conn : Bool) (now : Int)
    (d : RawRecord) :
    ((parsePositionFields now d).InstrumentID ≠ "" ∧ 0 < (parsePositionFields now d).Size →
       (parsePositionData c conn now d).1.currentPositions =
         setInsert c.currentPositions (parsePositionFields now d).InstrumentID ∧
       (parsePositionData c conn now d).2.2 = conn) ∧
    (¬((parsePositionFields now d).InstrumentID ≠ "" ∧ 0 < (parsePositionFields now d).Size) →
       (parsePositionData c conn now d).1 = c ∧
       (parsePositionData c conn now d).2.2 = false) ∧
    ((parsePositionData c conn now d).1.demoPositions = c.demoPositions) ∧
    ((parsePositionData c conn now d).1.isDemo = c.isDemo) ∧
    (∀ (c2 : OKXClient) (now2 : Int) (d2 : RawRecord),
       (handleTickerData c2 now2 d2).1.currentPositions = c2.currentPositions ∧
       (handleTickerData c2 now2 d2).1.isDemo = c2.isDemo) := by
  refine ⟨?_, ?_, ?_, ?_, ?_⟩
  · intro hg
    simp only [parsePositionData]
    rw [if_pos hg]
    exact ⟨rfl, rfl⟩
  · intro hg
    simp only [parsePositionData]
    rw [if_neg hg]
    exact ⟨rfl, rfl⟩
  · simp only [parsePositionData]
    split <;> rfl
  · simp only [parsePositionData]
    split <;> rfl
  · intro c2 now2 d2
    simp only [handleTickerData]
    split
    · exact ⟨rfl, rfl⟩
    · split
      · split
        · exact ⟨rfl, rfl⟩
        · exact ⟨rfl, rfl⟩
      · exact ⟨rfl, rfl⟩

/-- Witness for `subscription_trigger_amended` at the ticker-shaped
record. -/
theorem subscription_trigger_witness :
    ((parsePositionFields 0 tickerViaMain).InstrumentID ≠ "" ∧
      0 < (parsePositionFields 0 tickerViaMain).Size) ∧
    (parsePositionData c0 true 0 tickerViaMain).1.currentPositions =
      setInsert c0.currentPositions (parsePositionFields 0 tickerViaMain).InstrumentID ∧
    (parsePositionData c0 true 0 tickerViaMain).2.2 = true :=
  ⟨⟨by decide, by decide⟩,
   (subscription_trigger_amended c0 true 0 tickerViaMain).1 ⟨by decide, by decide⟩⟩

/-- A well-formed UUID-shaped API key. -/
def goodUUID : String := "aaaaaaaa-aaaa-aaaa-aaaa-aaaaaaaaaaaa"

/-- A 32-byte secret that contains the placeholder marker. -/
def placeholderSecret : String := "your-actual-api-secret0123456789"

/-- A 32-byte secret free of placeholder markers. -/
def cleanSecret : String := "0123456789ABCDEF0123456789ABCDEF"

/-- Claim C8 counterexample: a triple with a well-formed UUID key, a
32-byte secret, and a non-empty passphrase is rejected when the secret
contains the placeholder marker — the claim's validity conditions are not
sufficient. -/
theorem validate_cex :
    uuidMatch goodUUID = true ∧
    32 ≤ placeholderSecret.utf8ByteSize ∧
    ("pass" : String) ≠ "" ∧
    validateAPICredentials goodUUID placeholderSecret "pass" = false := by
  refine ⟨by decide, by decide, by decide, by decide⟩

/-- Claim C8 as amended: a key failing the UUID shape is rejected whatever
the other fields; a secret shorter than 32 bytes is rejected; and a
well-formed UUID key with a 32-byte-or-longer secret and a non-empty
passphrase is accepted provided none of the three fields contains its
placeholder marker. -/
theorem validate_amended :
    (∀ k s p : String, uuidMatch k = false →
        validateAPICredentials k s p = false) ∧
    (∀ k s p : String, s.utf8ByteSize < 32 →
        validateAPICredentials k s p = false) ∧
    (∀ k s p : String, uuidMatch k = true → 32 ≤ s.utf8ByteSize →
        p.utf8ByteSize ≠ 0 →
        goContains k "your-actual-api-key" = false →
        goContains s "your-actual-api-secret" = false →
        goContains p "your-actual-passphrase" = false →
        validateAPICredentials k s p = true) := by
  refine ⟨?_, ?_, ?_⟩
  · intro k s p h
    unfold validateAPICredentials
    by_cases h1 : (goContains k "your-actual-api-key" ||
        goContains s "your-actual-api-secret" ||
        goContains p "your-actual-passphrase") = true
    · rw [if_pos h1]
    · rw [if_neg h1, if_pos (show (!uuidMatch k) = true by simp [h])]
  · intro k s p h
    unfold validateAPICredentials
    by_cases h1 : (goContains k "your-actual-api-key" ||
        goContains s "your-actual-api-secret" ||
        goContains p "your-actual-passphrase") = true
    · rw [if_pos h1]
    · rw [if_neg h1]
      by_cases h2 : (!uuidMatch k) = true
      · rw [if_pos h2]
      · rw [if_neg h2, if_pos h]
  · intro k s p h1 h2 h3 hc1 hc2 hc3
    unfold validateAPICredentials
    rw [if_neg (by simp [hc1, hc2, hc3]),
        if_neg (by simp [h1]),
        if_neg (Nat.not_lt.mpr h2),
        if_neg (by simp [h3])]

/-- Witness for `validate_amended` at a complete valid credential
triple. -/
theorem validate_amended_witness :
    uuidMatch goodUUID = true ∧ 32 ≤ cleanSecret.utf8ByteSize ∧
    ("pw" : String).utf8ByteSize ≠ 0 ∧
    goContains goodUUID "your-actual-api-key" = false ∧
    goContains cleanSecret "your-actual-api-secret" = false ∧
    goContains "pw" "your-actual-passphrase" = false ∧
    validateAPICredentials goodUUID cleanSecret "pw" = true :=
  ⟨by decide, by decide, by decide, by decide, by decide, by decide,
   validate_amended.2.2 goodUUID cleanSecret "pw" (by decide) (by decide)
     (by decide) (by decide) (by decide) (by decide)⟩

/-- A stored balance entry whose equity is zero. -/
def bal0 : BalanceData :=
  { Currency := "USDT", TotalEquity := 0, AvailBalance := 0, Timestamp := 0 }

/-- A reducer state whose aggregate equity is zero but whose stored
previous balance is 5. -/
def mC9 : Model :=
  { positions := [], balances := [("USDT", bal0)], previousBalance := 5 }

/-- An incoming balance record. -/
def msgBal : BalanceData :=
  { Currency := "USDT", TotalEquity := 7, AvailBalance := 3, Timestamp := 1 }

/-- Claim C9 counterexample: when the current aggregate total is 0 the
reducer does **not** snapshot it — the previous balance stays at its old
value 5 instead of becoming the aggregate 0, so the snapshot does not
happen for every balance record. -/
theorem balance_snapshot_cex :
    totalEquityOf mC9.balances = 0 ∧
    (Model.updateBalanceMsg mC9 msgBal).previousBalance = 5 ∧
    ((5 : ℚ) ≠ 0) := by
  have ht : totalEquityOf mC9.balances = 0 := by
    norm_num [totalEquityOf, mC9, bal0]
  refine ⟨ht, ?_, by decide⟩
  simp only [Model.updateBalanceMsg, ht]
  norm_num [mC9]

/-- Claim C9 as amended: on a balance record the reducer snapshots the
aggregate total equity as the previous balance only when that aggregate
is positive, leaving the previous balance unchanged otherwise; it then
upserts the balance entry by currency, leaves other currencies' entries
alone, and does not touch the position table. -/
theorem balance_snapshot_amended (m : Model) (msg : BalanceData) :
    (0 < totalEquityOf m.balances →
       (Model.updateBalanceMsg m msg).previousBalance = totalEquityOf m.balances) ∧
    (¬ 0 < totalEquityOf m.balances →
       (Model.updateBalanceMsg m msg).previousBalance = m.previousBalance) ∧
    ((Model.updateBalanceMsg m msg).balances.lookup msg.Currency = some msg) ∧
    (∀ c : String, c ≠ msg.Currency →
       (Model.updateBalanceMsg m msg).balances.lookup c = m.balances.lookup c) ∧
    ((Model.updateBalanceMsg m msg).positions = m.positions) := by
  refine ⟨?_, ?_, ?_, ?_, rfl⟩
  · intro h
    simp only [Model.updateBalanceMsg]
    rw [if_pos h]
  · intro h
    simp only [Model.updateBalanceMsg]
    rw [if_neg h]
  · simp only [Model.updateBalanceMsg]
    exact mapSet_lookup_self m.balances msg.Currency msg
  · intro c hc
    simp only [Model.updateBalanceMsg]
    exact mapSet_lookup_ne m.balances msg.Currency msg c hc

/-- Witness for `balance_snapshot_amended` at the concrete state `mC9`. -/
theorem balance_snapshot_witness :
    (¬ 0 < totalEquityOf mC9.balances) ∧
    (Model.updateBalanceMsg mC9 msgBal).previousBalance = mC9.previousBalance ∧
    ((Model.updateBalanceMsg mC9 msgBal).balances.lookup msgBal.Currency = some msgBal) :=
  ⟨by norm_num [totalEquityOf, mC9, bal0],
   (balance_snapshot_amended mC9 msgBal).2.1 (by norm_num [totalEquityOf, mC9, bal0]),
   (balance_snapshot_amended mC9 msgBal).2.2.1⟩

/-- The price-only record the ticker handler emits for `tickerViaMain` at
clock value 3. -/
def pTickW : PositionData :=
  { InstrumentID := "BTC-USDT-SWAP", PositionSide := "", Size := 0, AvgPrice := 0,
    CurrentPrice := 50000, PnL := 0, PnLRatio := 0, Leverage := 0, Timestamp := 3 }

/-- Claim C10: every decoded position record, every decoded balance
record, and every record the ticker handler emits carries the local
receive-time clock value as its timestamp; for a fixed clock value the
timestamp is therefore independent of the message contents (the wire `ts`
field is never read). -/
theorem timestamps_local (now : Int) (d : RawRecord) :
    (parsePositionFields now d).Timestamp = now ∧
    (parseBalanceData now d).Timestamp = now ∧
    (∀ (c : OKXClient) (p : PositionData),
        p ∈ (handleTickerData c now d).2 → p.Timestamp = now) ∧
    (∀ d2 : RawRecord,
        (parsePositionFields now d).Timestamp = (parsePositionFields now d2).Timestamp ∧
        (parseBalanceData now d).Timestamp = (parseBalanceData now d2).Timestamp) := by
  refine ⟨rfl, rfl, ?_, fun d2 => ⟨rfl, rfl⟩⟩
  intro c p hmem
  simp only [handleTickerData] at hmem
  split at hmem
  · simp at hmem
  · split at hmem
    · split at hmem
      · simp at hmem
        subst hmem
        rfl
      · simp at hmem
        subst hmem
        rfl
    · simp at hmem
      subst hmem
      rfl

/-- Witness for `timestamps_local` on a concrete emitted ticker record. -/
theorem timestamps_local_witness :
    (pTickW ∈ (handleTickerData c0 3 tickerViaMain).2) ∧ pTickW.Timestamp = 3 :=
  ⟨by decide, (timestamps_local 3 tickerViaMain).2.2.1 c0 pTickW (by decide)⟩
